import Mathlib

/-!
Shallow embedding of the core of `rust.zsh-system`, a Rust library for
writing zsh loadable modules, together with proofs about the embedded
operations.

Conventions used throughout:
* Rust `&str` / `String` values are modelled as Lean `String` where byte-level
  encoding is irrelevant, and as `Bytes := List Nat` (their UTF-8 byte lists)
  where embedded NUL bytes or the host's metafication matter.
* Host (zsh) state touched by the wrappers is made explicit: the builtin
  handler table, the hook table, the parameter table and the parameter
  hash-node store are threaded through the embedded functions.
* A Rust panic (process abort) is a distinguished outcome, separate from a
  returned error value.
-/

namespace ZshSystem

/-- A safe builtin command handler (`BuiltinHandler` in
src/src/module/builtin.rs): command name and argument slice to exit status. -/
abbrev BuiltinHandler : Type := String → List String → Int

/-- The global `HANDLERS` table of src/src/module/builtin.rs: a vector of
(name, handler) pairs, appended to in registration order. -/
abbrev HandlerTable : Type := List (String × BuiltinHandler)

/-- Embeds `register_handler` (src/src/module/builtin.rs lines 117-124): push the
pair unless an entry with the same name is already present. -/
def register_handler (tbl : HandlerTable) (name : String) (h : BuiltinHandler) :
    HandlerTable :=
  if tbl.any (fun p => p.1 == name) then tbl else tbl ++ [(name, h)]

/-- Embeds `dispatch` (src/src/module/builtin.rs lines 130-137): find the first
handler registered under the name and invoke it; return exit status 1 when
no handler is found. -/
def dispatch (tbl : HandlerTable) (name : String) (args : List String) : Int :=
  match tbl.find? (fun p => p.1 == name) with
  | some p => p.2 name args
  | none => 1

/-- A sample handler used by concrete witnesses: always returns 42. -/
def handler42 : BuiltinHandler := fun _ _ => 42

/-- A second sample handler used by concrete witnesses: always returns 7. -/
def handler7 : BuiltinHandler := fun _ _ => 7

theorem find?_eq_none_of_fresh (tbl : HandlerTable) (name : String)
    (hfresh : ∀ p ∈ tbl, p.1 ≠ name) :
    tbl.find? (fun p => p.1 == name) = none := by
  rw [List.find?_eq_none]
  intro p hp
  simpa using hfresh p hp

theorem any_eq_false_of_fresh (tbl : HandlerTable) (name : String)
    (hfresh : ∀ p ∈ tbl, p.1 ≠ name) :
    tbl.any (fun p => p.1 == name) = false := by
  rw [List.any_eq_false]
  intro p hp
  simpa using hfresh p hp

theorem find?_append_last (tbl : HandlerTable) (name : String) (h : BuiltinHandler)
    (hfresh : ∀ p ∈ tbl, p.1 ≠ name) :
    (tbl ++ [(name, h)]).find? (fun p => p.1 == name) = some (name, h) := by
  induction tbl with
  | nil => simp
  | cons q rest ih =>
    have hq : q.1 ≠ name := hfresh q (List.mem_cons_self q rest)
    have : (q.1 == name) = false := by simpa using hq
    simp only [List.cons_append, List.find?_cons, this]
    exact ih (fun p hp => hfresh p (List.mem_cons_of_mem q hp))

/-- C3: for a name with no prior registration, registering a handler and then
dispatching that name yields exactly the handler's result on (name, args);
and dispatching a never-registered name yields exit status 1. -/
theorem register_then_dispatch_eq_handler (tbl : HandlerTable) (name : String)
    (h : BuiltinHandler) (args : List String)
    (hfresh : ∀ p ∈ tbl, p.1 ≠ name) :
    dispatch (register_handler tbl name h) name args = h name args ∧
    dispatch tbl name args = 1 := by
  constructor
  · unfold register_handler dispatch
    rw [any_eq_false_of_fresh tbl name hfresh]
    simp only [Bool.false_eq_true, if_false]
    rw [find?_append_last tbl name h hfresh]
  · unfold dispatch
    rw [find?_eq_none_of_fresh tbl name hfresh]

/-- Witness for C3 at a concrete input: empty table, name "hello",
handler returning 42. -/
theorem register_then_dispatch_eq_handler_witness :
    dispatch (register_handler [] "hello" handler42) "hello" [] = handler42 "hello" [] ∧
    dispatch [] "hello" [] = 1 :=
  register_then_dispatch_eq_handler [] "hello" handler42 []
    (by intro p hp; simp at hp)

/-- C9: registering twice under the same command name is literally a no-op
the second time (whatever the second handler is), and when the name was
fresh the table ends up with exactly one entry under that name, namely the
first handler; hence every subsequent dispatch behaves as after the first
registration alone. -/
theorem register_handler_second_noop (tbl : HandlerTable) (name : String)
    (h h2 : BuiltinHandler) (hfresh : ∀ p ∈ tbl, p.1 ≠ name) :
    register_handler (register_handler tbl name h) name h2 =
      register_handler tbl name h ∧
    (register_handler (register_handler tbl name h) name h2).countP
      (fun p => p.1 == name) = 1 ∧
    ∀ args, dispatch (register_handler (register_handler tbl name h) name h2)
      name args = h name args := by
  have hany : tbl.any (fun p => p.1 == name) = false :=
    any_eq_false_of_fresh tbl name hfresh
  have hreg1 : register_handler tbl name h = tbl ++ [(name, h)] := by
    unfold register_handler
    rw [hany]
    simp
  have hmem : (tbl ++ [(name, h)]).any (fun p => p.1 == name) = true := by
    simp
  have hnoop : register_handler (register_handler tbl name h) name h2 =
      register_handler tbl name h := by
    rw [hreg1]
    unfold register_handler
    rw [hmem]
    simp
  refine ⟨hnoop, ?_, ?_⟩
  · rw [hnoop, hreg1]
    rw [List.countP_append]
    have hc0 : tbl.countP (fun p => p.1 == name) = 0 := by
      rw [List.countP_eq_zero]
      intro p hp
      simpa using hfresh p hp
    simp [hc0]
  · intro args
    rw [hnoop, hreg1]
    unfold dispatch
    rw [find?_append_last tbl name h hfresh]

/-- Witness for C9 at a concrete input: empty table, name "hello", first
handler returning 42, second returning 7. -/
theorem register_handler_second_noop_witness :
    register_handler (register_handler [] "hello" handler42) "hello" handler7 =
      register_handler [] "hello" handler42 ∧
    (register_handler (register_handler [] "hello" handler42) "hello"
      handler7).countP (fun p => p.1 == "hello") = 1 ∧
    ∀ args, dispatch (register_handler (register_handler [] "hello" handler42)
      "hello" handler7) "hello" args = handler42 "hello" args :=
  register_handler_second_noop [] "hello" handler42 handler7
    (by intro p hp; simp at hp)

/-! ## Hook subsystem (src/src/module/hook.rs) -/

/-- A native hook callback, identified (as in the Rust code) purely by
function identity; modelled as an abstract identifier. -/
abbrev Callback := Nat

/-- Returns true when the string contains an embedded NUL character, the
condition under which Rust's CString construction fails. -/
def hasNul (s : String) : Bool :=
  s.data.any (fun c => c == Char.ofNat 0)

/-- The host state visible to the hook subsystem: the host's hook table
(hook name to list of registered native callbacks) and the script-level
array variables (name to elements). The arrays component is carried so
that statements about Hook operations can speak about script-level array
variables; the hook code in src/src/module/hook.rs calls no parameter
API, only gethookdef / addhookfunc / deletehookfunc. -/
structure HookHost where
  hooks : List (String × List Callback)
  arrays : List (String × List String)
deriving DecidableEq, Repr

/-- Modelled from the spec: zsh's addhookfunc (a host function, not part of
src/), which appends the callback to the named hook's callback list and is
a no-op when the hook name is unknown to the host. -/
def addhookfunc (hooks : List (String × List Callback)) (name : String)
    (f : Callback) : List (String × List Callback) :=
  hooks.map (fun p => if p.1 == name then (p.1, p.2 ++ [f]) else p)

/-- Modelled from the spec: zsh's deletehookfunc (a host function, not part
of src/), which removes the callback from the named hook's callback list. -/
def deletehookfunc (hooks : List (String × List Callback)) (name : String)
    (f : Callback) : List (String × List Callback) :=
  hooks.map (fun p => if p.1 == name then (p.1, p.2.filter (fun g => g != f)) else p)

/-- The error type `HookError` of src/src/module/hook.rs. -/
inductive HookError where
  | AlreadyExists (name : String)
  | NotFound (name : String)
  | InvalidString
deriving DecidableEq, Repr

/-- A single apostrophe character, used in the NotFound message that
Hook::remove formats around the hook name. -/
def squote : String := String.mk [Char.ofNat 39]

/-- Embeds `Hook::add` (src/src/module/hook.rs lines 164-190): convert the name
(InvalidString on embedded NUL), resolve the hook definition; when the hook
is known, linearly scan its registered callbacks and fail with AlreadyExists
on an identical callback; otherwise register via addhookfunc. Note the
source touches no script-level array variable. -/
def hookAdd (st : HookHost) (name : String) (f : Callback) :
    Except HookError HookHost :=
  if hasNul name then .error .InvalidString
  else
    match st.hooks.find? (fun p => p.1 == name) with
    | some p =>
        if p.2.contains f then .error (.AlreadyExists name)
        else .ok { st with hooks := addhookfunc st.hooks name f }
    | none => .ok { st with hooks := addhookfunc st.hooks name f }

/-- Embeds `Hook::remove` (src/src/module/hook.rs lines 201-231): NotFound when the
hook name is unknown to the host; otherwise scan the registered callbacks
for the function and either deregister it or fail with NotFound. -/
def hookRemove (st : HookHost) (name : String) (f : Callback) :
    Except HookError HookHost :=
  if hasNul name then .error .InvalidString
  else
    match st.hooks.find? (fun p => p.1 == name) with
    | none => .error (.NotFound name)
    | some p =>
        if p.2.contains f then
          .ok { st with hooks := deletehookfunc st.hooks name f }
        else
          .error (.NotFound ("Function in hook " ++ squote ++ name ++ squote))

theorem find?_addhookfunc (hooks : List (String × List Callback)) (name : String)
    (f : Callback) :
    (addhookfunc hooks name f).find? (fun p => p.1 == name) =
      (hooks.find? (fun p => p.1 == name)).map (fun p => (p.1, p.2 ++ [f])) := by
  induction hooks with
  | nil => rfl
  | cons q rest ih =>
    unfold addhookfunc at *
    simp only [List.map_cons]
    by_cases hq : (q.1 == name) = true
    · rw [if_pos hq]
      simp [List.find?_cons, hq]
    · have hq2 : (q.1 == name) = false := by simpa using hq
      rw [if_neg (by simp [hq2])]
      simp only [List.find?_cons, hq2]
      exact ih

/-- C6: with a hook known to the host and a callback not yet registered on
it, a first Hook.add succeeds and a second Hook.add of the same (name,
callback) pair returns AlreadyExists(name); Hook.remove of a callback not
registered on a known hook returns NotFound, as does Hook.remove on a hook
name unknown to the host. -/
theorem hook_add_twice_already_exists (st : HookHost) (name : String)
    (f g : Callback) (cbs : List Callback)
    (hnul : hasNul name = false)
    (hfind : st.hooks.find? (fun p => p.1 == name) = some (name, cbs))
    (hf : cbs.contains f = false) (hg : cbs.contains g = false) :
    hookAdd st name f = .ok { st with hooks := addhookfunc st.hooks name f } ∧
    hookAdd { st with hooks := addhookfunc st.hooks name f } name f =
      .error (.AlreadyExists name) ∧
    hookRemove st name g =
      .error (.NotFound ("Function in hook " ++ squote ++ name ++ squote)) ∧
    ∀ st2 : HookHost, ∀ other : String, hasNul other = false →
      st2.hooks.find? (fun p => p.1 == other) = none →
      hookRemove st2 other g = .error (.NotFound other) := by
  refine ⟨?_, ?_, ?_, ?_⟩
  · have hf2 : f ∉ cbs := by simpa using hf
    unfold hookAdd
    simp only [hnul, Bool.false_eq_true, if_false, hfind]
    simp [hf2]
  · have hfd : (addhookfunc st.hooks name f).find? (fun p => p.1 == name) =
        some (name, cbs ++ [f]) := by
      rw [find?_addhookfunc, hfind]
      rfl
    unfold hookAdd
    simp only [hnul, Bool.false_eq_true, if_false, hfd]
    simp
  · have hg2 : g ∉ cbs := by simpa using hg
    unfold hookRemove
    simp only [hnul, Bool.false_eq_true, if_false, hfind]
    simp [hg2]
  · intro st2 other hnul2 hnone
    unfold hookRemove
    simp only [hnul2, Bool.false_eq_true, if_false, hnone]

/-- Witness for C6 at a concrete input: host knowing hook "precmd" with an
empty callback list, callbacks 5 and 7, plus the hook name "nosuch" unknown
to a host that only knows "zle-line-init". -/
theorem hook_add_twice_already_exists_witness :
    hookAdd ⟨[("precmd", [])], []⟩ "precmd" 5 =
      .ok { hooks := addhookfunc [("precmd", [])] "precmd" 5, arrays := [] } ∧
    hookAdd { hooks := addhookfunc [("precmd", [])] "precmd" 5, arrays := [] }
      "precmd" 5 = .error (.AlreadyExists "precmd") ∧
    hookRemove ⟨[("precmd", [])], []⟩ "precmd" 7 =
      .error (.NotFound ("Function in hook " ++ squote ++ "precmd" ++ squote)) ∧
    hookRemove ⟨[("zle-line-init", [])], []⟩ "nosuch" 7 =
      .error (.NotFound "nosuch") := by
  have h := hook_add_twice_already_exists ⟨[("precmd", [])], []⟩ "precmd" 5 7 []
    (by decide) (by decide) (by decide) (by decide)
  exact ⟨h.1, h.2.1, h.2.2.1,
    h.2.2.2 ⟨[("zle-line-init", [])], []⟩ "nosuch" (by decide) (by decide)⟩

/-- C2 counterexample: on a host that knows hook "precmd" and has no
script-level array variables at all, Hook.add succeeds yet leaves the array
table untouched, so the same-named array variable is still absent (its
lookup yields none) instead of being populated with a placeholder entry. -/
theorem hook_add_no_placeholder_cex :
    hookAdd { hooks := [("precmd", [])], arrays := [] } "precmd" 5 =
      .ok { hooks := [("precmd", [5])], arrays := [] } ∧
    (HookHost.mk [("precmd", [5])] []).arrays.find?
      (fun p => p.1 == "precmd") = none := by
  constructor
  · rfl
  · rfl

/-- C2 amended: a successful Hook.add registers the callback in the host's
hook table (appending it to the named hook's callback list) and performs no
synchronization of any script-level array variable: the arrays component of
the host state is returned unchanged. -/
theorem hook_add_leaves_arrays_unchanged (st st2 : HookHost) (name : String)
    (f : Callback) (hok : hookAdd st name f = .ok st2) :
    st2.arrays = st.arrays ∧ st2.hooks = addhookfunc st.hooks name f := by
  unfold hookAdd at hok
  split at hok
  · exact absurd hok (by simp)
  · split at hok
    · split at hok
      · exact absurd hok (by simp)
      · cases hok
        exact ⟨rfl, rfl⟩
    · cases hok
      exact ⟨rfl, rfl⟩

/-- Witness for the amended C2 at a concrete input. -/
theorem hook_add_leaves_arrays_unchanged_witness :
    (HookHost.mk [("precmd", [5])] [("other", ["x"])]).arrays =
      (HookHost.mk [("precmd", [])] [("other", ["x"])]).arrays ∧
    (HookHost.mk [("precmd", [5])] [("other", ["x"])]).hooks =
      addhookfunc [("precmd", [])] "precmd" 5 :=
  hook_add_leaves_arrays_unchanged ⟨[("precmd", [])], [("other", ["x"])]⟩
    ⟨[("precmd", [5])], [("other", ["x"])]⟩ "precmd" 5 rfl

/-! ## Feature registry (src/src/module/features.rs, src/src/module/builtin.rs) -/

/-- The `Builtin` struct of src/src/module/builtin.rs: name, handler and
argument bounds. The ZString name is modelled by the string it carries. -/
structure Builtin where
  name : String
  handler : BuiltinHandler
  min_args : Int
  max_args : Int

/-- Embeds `Builtin::new` (src/src/module/builtin.rs lines 30-37): min_args 0 and
max_args -1 (no maximum). -/
def Builtin.new (name : String) (h : BuiltinHandler) : Builtin :=
  ⟨name, h, 0, -1⟩

/-- The raw `bindings::builtin` C struct as far as the registry fills it in
(`Builtin::as_raw`): node name, argument bounds; the handler-function field
always holds the shared bridge trampoline and is omitted. -/
structure RawBuiltin where
  nam : String
  minargs : Int
  maxargs : Int
deriving DecidableEq, Repr

/-- Embeds `Builtin::as_raw` (src/src/module/builtin.rs lines 84-98) restricted to
the fields the registry sets. -/
def Builtin.as_raw (b : Builtin) : RawBuiltin :=
  ⟨b.name, b.min_args, b.max_args⟩

/-- The i32 value of a usize length, as produced by the `as i32` cast in
`Features::as_zsh_features`. -/
def toI32 (n : Nat) : Int :=
  if n % 2 ^ 32 < 2 ^ 31 then ((n % 2 ^ 32 : Nat) : Int)
  else ((n % 2 ^ 32 : Nat) : Int) - 2 ^ 32

/-- The `Features` struct of src/src/module/features.rs, restricted to the
builtin list and abstract count (the condition / math-function / parameter
lists play no role in the claims and stay empty in all constructions the
claims quantify over; they are carried as bare lengths for the size
fields). -/
structure FeaturesS where
  builtins : List Builtin
  conddefs : Nat
  math_funcs : Nat
  param_defs : Nat
  n_abstract : Int

/-- Embeds `Features::new` (src/src/module/features.rs lines 46-58): everything
empty, n_abstract 0. -/
def featuresNew : FeaturesS :=
  ⟨[], 0, 0, 0, 0⟩

/-- Embeds `Features::add_builtin` (src/src/module/features.rs lines 64-73): first
registers the handler in the global dispatcher table, then unconditionally
pushes a new Builtin onto the features list. Both the features value and the
global handler table are threaded explicitly. -/
def add_builtin (fs : FeaturesS) (tbl : HandlerTable) (name : String)
    (h : BuiltinHandler) : FeaturesS × HandlerTable :=
  ({ fs with builtins := fs.builtins ++ [Builtin.new name h] },
   register_handler tbl name h)

/-- The fields of the `bindings::features` struct produced by
`Features::as_zsh_features` that concern builtins: the regenerated raw
builtin array and its i32 size. -/
structure RawFeatures where
  bn_list : List RawBuiltin
  bn_size : Int
  n_abstract : Int
deriving DecidableEq, Repr

/-- Embeds `Features::as_zsh_features` (src/src/module/features.rs lines 87-105):
regenerates the raw builtin array from the current builtin list and sets
bn_size to its length cast to i32. -/
def as_zsh_features (fs : FeaturesS) : RawFeatures :=
  ⟨fs.builtins.map Builtin.as_raw, toI32 (fs.builtins.map Builtin.as_raw).length,
   fs.n_abstract⟩

/-- A sequence of add_builtin calls starting from given registry and
dispatcher states. -/
def runAddBuiltins (calls : List (String × BuiltinHandler))
    (fs : FeaturesS) (tbl : HandlerTable) : FeaturesS × HandlerTable :=
  match calls with
  | [] => (fs, tbl)
  | c :: rest =>
      let r := add_builtin fs tbl c.1 c.2
      runAddBuiltins rest r.1 r.2

/-- C4 counterexample: two add_builtin calls under the same name "dup" on a
fresh registry yield bn_size 2, while the name-deduplicated number of calls
is 1; so bn_size does not equal the post-dedup call count. -/
theorem bn_size_counts_duplicates_cex :
    (as_zsh_features (runAddBuiltins [("dup", handler42), ("dup", handler7)]
      featuresNew []).1).bn_size = 2 ∧
    (["dup", "dup"] : List String).dedup.length = 1 ∧
    (2 : Int) ≠ 1 := by
  refine ⟨rfl, ?_, by decide⟩
  rfl

/-- Builtin list length after a call sequence: every call appends exactly
one entry. -/
theorem runAddBuiltins_length (calls : List (String × BuiltinHandler))
    (fs : FeaturesS) (tbl : HandlerTable) :
    (runAddBuiltins calls fs tbl).1.builtins.length =
      fs.builtins.length + calls.length := by
  induction calls generalizing fs tbl with
  | nil => simp [runAddBuiltins]
  | cons c rest ih =>
    simp only [runAddBuiltins, add_builtin]
    rw [ih]
    simp
    omega

/-- C4 amended: after any sequence of add_builtin calls on a freshly
constructed registry, bn_size equals the total number of add_builtin calls
made since construction, duplicates by name included (deduplication applies
only to the dispatcher's handler table, not to the command array); the count
is exact whenever it stays below 2^31 (i32 cast). -/
theorem bn_size_eq_total_calls (calls : List (String × BuiltinHandler))
    (hsmall : calls.length < 2 ^ 31) :
    (as_zsh_features (runAddBuiltins calls featuresNew []).1).bn_size =
      (calls.length : Int) := by
  unfold as_zsh_features
  simp only [List.length_map]
  rw [runAddBuiltins_length]
  show toI32 (0 + calls.length) = (calls.length : Int)
  unfold toI32
  have h32 : (0 + calls.length) % 2 ^ 32 = calls.length := by
    rw [Nat.zero_add]
    exact Nat.mod_eq_of_lt (by omega)
  rw [h32]
  rw [if_pos (by omega)]

/-- Witness for the amended C4: three calls, one name duplicated. -/
theorem bn_size_eq_total_calls_witness :
    (as_zsh_features (runAddBuiltins
      [("a", handler42), ("a", handler7), ("b", handler42)] featuresNew []).1).bn_size
      = ((3 : Nat) : Int) := by
  have h := bn_size_eq_total_calls
    [("a", handler42), ("a", handler7), ("b", handler42)] (by decide)
  simpa using h

/-! ## Module lifecycle (src/src/macros.rs, entry point setup_) -/

/-- The observable behavior of the user extension type bound by
export_module: what Default::default constructs (abstracted to an
identifier), whether its setup() succeeds, and the feature set its
features() returns (abstracted to an identifier). -/
structure ModuleImpl where
  defaultInst : Nat
  setupOk : Bool
  featuresVal : Nat

/-- The `ModuleContainer` of the expanded macro (src/src/macros.rs lines
22-25): the stored instance and its cached features. -/
structure ModuleContainer where
  inst : Nat
  features_cache : Nat
deriving DecidableEq, Repr

/-- The side effects a setup_ call performs, in order: constructing a fresh
default instance, running its setup behavior, computing its feature set. -/
inductive SetupEvent where
  | constructed
  | setupRun
  | featuresComputed
deriving DecidableEq, Repr

/-- The `setup_` entry point (src/src/macros.rs lines 51-81): always
default-construct a fresh instance and run its setup(); on success compute
the features cache and attempt the one-time OnceLock initialization of
MODULE_STORAGE, returning 1 (storage kept as is) when it was already
initialized; on setup failure return 1. Returns the new storage, the status
and the trace of side effects performed. -/
def setupEntry (impl : ModuleImpl) (storage : Option ModuleContainer) :
    Option ModuleContainer × Int × List SetupEvent :=
  if impl.setupOk then
    match storage with
    | none => (some ⟨impl.defaultInst, impl.featuresVal⟩, 0,
        [.constructed, .setupRun, .featuresComputed])
    | some c => (some c, 1, [.constructed, .setupRun, .featuresComputed])
  else (storage, 1, [.constructed, .setupRun])

/-- A sequence of setup_ calls (each parameterized by the behavior the
extension object exhibits on that call), returning the final storage and
the list of returned statuses. -/
def runSetups (impls : List ModuleImpl) (storage : Option ModuleContainer) :
    Option ModuleContainer × List Int :=
  match impls with
  | [] => (storage, [])
  | i :: rest =>
      let r := setupEntry i storage
      let rr := runSetups rest r.1
      (rr.1, r.2.1 :: rr.2)

theorem runSetups_after_stored (impls : List ModuleImpl) (c : ModuleContainer) :
    runSetups impls (some c) = (some c, impls.map (fun _ => 1)) := by
  induction impls with
  | nil => rfl
  | cons i rest ih =>
    unfold runSetups setupEntry
    cases h : i.setupOk <;> simp [h, ih]

/-- C1: when the first setup_ call's extension setup succeeds, that call
returns 0 and stores the single instance (with its feature cache); every
later setup_ call, whatever its fresh instance does, returns the nonzero
status 1 and leaves the originally stored container in place, so at most
one instance is ever stored. -/
theorem setup_once_then_always_fails (impl : ModuleImpl)
    (rest : List ModuleImpl) (hok : impl.setupOk = true) :
    runSetups (impl :: rest) none =
      (some ⟨impl.defaultInst, impl.featuresVal⟩,
        0 :: rest.map (fun _ => 1)) := by
  unfold runSetups setupEntry
  rw [hok]
  simp [runSetups_after_stored]

/-- Witness for C1: a succeeding first call followed by two later calls,
one with succeeding and one with failing setup behavior. -/
theorem setup_once_then_always_fails_witness :
    runSetups [⟨3, true, 9⟩, ⟨4, true, 9⟩, ⟨5, false, 9⟩] none =
      (some ⟨3, 9⟩, 0 :: [(1 : Int), 1]) := by
  have h := setup_once_then_always_fails ⟨3, true, 9⟩ [⟨4, true, 9⟩, ⟨5, false, 9⟩]
    rfl
  simpa using h

/-- C10: a setup_ call made while an instance is already stored still
constructs a fresh default instance and runs its setup behavior (and, when
that setup succeeds, also computes its feature set) before returning the
failure status 1; the stored container, including its cached feature set,
is returned unchanged, the fresh instance and cache being discarded. -/
theorem setup_second_call_runs_side_effects (impl : ModuleImpl)
    (c : ModuleContainer) :
    (setupEntry impl (some c)).2.1 = 1 ∧
    (setupEntry impl (some c)).1 = some c ∧
    SetupEvent.constructed ∈ (setupEntry impl (some c)).2.2 ∧
    SetupEvent.setupRun ∈ (setupEntry impl (some c)).2.2 ∧
    (impl.setupOk = true →
      (setupEntry impl (some c)).2.2 =
        [.constructed, .setupRun, .featuresComputed]) := by
  unfold setupEntry
  cases h : impl.setupOk <;> simp [h]

/-- Witness for C10 at a concrete input: stored container (3, 9), fresh
instance with succeeding setup. -/
theorem setup_second_call_runs_side_effects_witness :
    (setupEntry ⟨4, true, 8⟩ (some ⟨3, 9⟩)).2.1 = 1 ∧
    (setupEntry ⟨4, true, 8⟩ (some ⟨3, 9⟩)).1 = some ⟨3, 9⟩ ∧
    SetupEvent.constructed ∈ (setupEntry ⟨4, true, 8⟩ (some ⟨3, 9⟩)).2.2 ∧
    SetupEvent.setupRun ∈ (setupEntry ⟨4, true, 8⟩ (some ⟨3, 9⟩)).2.2 ∧
    ((⟨4, true, 8⟩ : ModuleImpl).setupOk = true →
      (setupEntry ⟨4, true, 8⟩ (some ⟨3, 9⟩)).2.2 =
        [.constructed, .setupRun, .featuresComputed]) :=
  setup_second_call_runs_side_effects ⟨4, true, 8⟩ ⟨3, 9⟩

/-! ## Ownership bridge and parameter accessors
(src/src/zalloc.rs, src/src/envs.rs)

Rust strings are modelled here as their UTF-8 byte lists, since the
behavior under scrutiny (embedded NUL bytes, the host's metafication) is
byte-level. A returned Rust String is likewise represented by its byte
list; the lossy UTF-8 decoding step in get_str is the identity on values
that round-trip from a Rust &str, which is always valid UTF-8. -/

/-- A byte string: the UTF-8 bytes of a Rust string value. -/
abbrev Bytes := List Nat

/-- Outcome of a call that can return normally, return an error value, or
abort the process (a Rust panic). -/
inductive COutcome (α : Type) where
  | ok (a : α)
  | err (msg : String)
  | abort (msg : String)
deriving DecidableEq, Repr

/-- True when the outcome is a returned (recoverable) error value, as
opposed to a normal return or a process abort. -/
def COutcome.isLocalErr {α : Type} : COutcome α → Bool
  | .err _ => true
  | _ => false

/-- Embeds `ZString::new` (src/src/zalloc.rs lines 97-106): CString::new fails on
an embedded NUL byte and the result is unwrapped with expect, i.e. a panic
(process abort); otherwise the host's ztrdup duplicates the string (host
allocation is assumed to succeed here; its failure is the separate
out-of-memory abort in ZBox::from_raw). -/
def zstringNew (s : Bytes) : COutcome Bytes :=
  if s.contains 0 then
    .abort "ZString::new failed: input string contains null bytes"
  else .ok s

/-- A zsh parameter value: a scalar byte string or an array of byte
strings, stored metafied. -/
inductive ZValue where
  | scalar (v : Bytes)
  | array (vs : List Bytes)
deriving DecidableEq, Repr

/-- The host's parameter table, keyed by (NUL-free) parameter name bytes. -/
abbrev ParamTable := List (Bytes × ZValue)

/-- Modelled from the spec: storing into the host parameter table
(setsparam / setaparam are zsh host functions, not part of src/) replaces
the value of an existing same-named parameter or appends a new entry; the
host's rare failure path (e.g. readonly parameters) is not modelled, the
wrappers forward it verbatim. -/
def setParamEntry (tab : ParamTable) (name : Bytes) (v : ZValue) : ParamTable :=
  if tab.any (fun p => p.1 == name) then
    tab.map (fun p => if p.1 == name then (p.1, v) else p)
  else tab ++ [(name, v)]

/-- Modelled from the spec: host parameter lookup by name. -/
def getParamEntry (tab : ParamTable) (name : Bytes) : Option ZValue :=
  (tab.find? (fun p => p.1 == name)).map Prod.snd

/-- Modelled from the spec: zsh's metafy (host function, not part of src/):
each byte in the meta range (Meta = 0x83 through Marker = 0xa2) is escaped
as Meta followed by the byte XOR 32. -/
def metafy : Bytes → Bytes
  | [] => []
  | b :: rest =>
      if 131 ≤ b ∧ b ≤ 162 then 131 :: (b ^^^ 32) :: metafy rest
      else b :: metafy rest

/-- Modelled from the spec: zsh's unmetafy (host function, not part of
src/): a Meta byte (0x83) is dropped and the following byte XORed with 32
(a trailing lone Meta byte, which metafy never produces, is kept as is). -/
def unmetafy : Bytes → Bytes
  | [] => []
  | b :: rest =>
      if b = 131 then
        match rest with
        | [] => [131]
        | c :: rest2 => (c ^^^ 32) :: unmetafy rest2
      else b :: unmetafy rest

theorem unmetafy_metafy (s : Bytes) : unmetafy (metafy s) = s := by
  induction s with
  | nil => rfl
  | cons b rest ih =>
    unfold metafy
    by_cases hb : 131 ≤ b ∧ b ≤ 162
    · rw [if_pos hb]
      show unmetafy (131 :: (b ^^^ 32) :: metafy rest) = b :: rest
      unfold unmetafy
      rw [if_pos rfl]
      show (b ^^^ 32 ^^^ 32) :: unmetafy (metafy rest) = b :: rest
      rw [ih]
      have hx : b ^^^ 32 ^^^ 32 = b := Nat.xor_cancel_right 32 b
      rw [hx]
    · rw [if_neg hb]
      have hne : b ≠ 131 := by
        intro h
        exact hb (by omega)
      show unmetafy (b :: metafy rest) = b :: rest
      unfold unmetafy
      rw [if_neg hne, ih]

/-- Embeds `ZshParameter::set_str` (src/src/envs.rs lines 40-61): fails with a
local error value when the name or the value contains an embedded NUL;
otherwise duplicates the value metafied (ztrdup_metafy) and hands the
pointer to the host via setsparam. -/
def set_str (tab : ParamTable) (name value : Bytes) : Except String ParamTable :=
  if name.contains 0 then .error "Invalid name"
  else if value.contains 0 then .error "Invalid value"
  else .ok (setParamEntry tab name (.scalar (metafy value)))

/-- Embeds `ZshParameter::get_str` (src/src/envs.rs lines 16-31): fails (None) on
a name with an embedded NUL, looks the scalar up via getsparam and
unmetafies the stored value. -/
def get_str (tab : ParamTable) (name : Bytes) : Option Bytes :=
  if name.contains 0 then none
  else
    match getParamEntry tab name with
    | some (.scalar v) => some (unmetafy v)
    | _ => none

/-- Embeds `ZshParameter::set_array` (src/src/envs.rs lines 96-139): fails with a
local error value when the name or any element contains an embedded NUL;
otherwise builds a host-allocated, NUL-terminated array of metafied
elements and hands it to the host via setaparam. -/
def set_array (tab : ParamTable) (name : Bytes) (values : List Bytes) :
    Except String ParamTable :=
  if name.contains 0 then .error "Invalid name"
  else if values.any (fun v => v.contains 0) then .error "Invalid value in array"
  else .ok (setParamEntry tab name (.array (values.map metafy)))

/-- Modelled from the spec: the generic list getter (getList of spec
section 4.2); src/ has no host-table array getter in envs.rs, so this is
taken from the spec's description: look the array parameter up and return
its elements unmetafied, in order. -/
def get_list (tab : ParamTable) (name : Bytes) : Option (List Bytes) :=
  if name.contains 0 then none
  else
    match getParamEntry tab name with
    | some (.array vs) => some (vs.map unmetafy)
    | _ => none

theorem setParamEntry_cons_ne (p : Bytes × ZValue) (rest : ParamTable)
    (name : Bytes) (v : ZValue) (hp : (p.1 == name) = false) :
    setParamEntry (p :: rest) name v = p :: setParamEntry rest name v := by
  unfold setParamEntry
  simp only [List.any_cons, hp, Bool.false_or]
  cases h : rest.any (fun q => q.1 == name) with
  | true =>
      have hp2 : p.1 ≠ name := by simpa using hp
      simp [hp2]
  | false => simp

theorem getParamEntry_setParamEntry (tab : ParamTable) (name : Bytes)
    (v : ZValue) :
    getParamEntry (setParamEntry tab name v) name = some v := by
  induction tab with
  | nil => simp [setParamEntry, getParamEntry]
  | cons p rest ih =>
    cases hp : (p.1 == name) with
    | true =>
        have hp3 : p.1 = name := by simpa using hp
        have hany : (p :: rest).any (fun q => q.1 == name) = true := by
          simp [List.any_cons, hp]
        unfold setParamEntry
        rw [hany]
        simp only [if_true, List.map_cons]
        rw [if_pos hp]
        unfold getParamEntry
        have hb : (((p.1, v) : Bytes × ZValue).1 == name) = true := by
          simpa using hp3
        simp [List.find?_cons, hb]
    | false =>
        rw [setParamEntry_cons_ne p rest name v hp]
        unfold getParamEntry at *
        simp only [List.find?_cons, hp]
        exact ih

/-- C8: setting a scalar parameter with a valid name and value succeeds and
a following get returns back exactly that value; setting a list parameter
succeeds and a following list get returns the same elements in the same
order (the host stores metafied copies; get unmetafies them). -/
theorem set_get_round_trip (tab : ParamTable) (name value : Bytes)
    (values : List Bytes)
    (hn : name.contains 0 = false) (hv : value.contains 0 = false)
    (hvs : values.any (fun v => v.contains 0) = false) :
    set_str tab name value =
      .ok (setParamEntry tab name (.scalar (metafy value))) ∧
    get_str (setParamEntry tab name (.scalar (metafy value))) name =
      some value ∧
    set_array tab name values =
      .ok (setParamEntry tab name (.array (values.map metafy))) ∧
    get_list (setParamEntry tab name (.array (values.map metafy))) name =
      some values := by
  refine ⟨?_, ?_, ?_, ?_⟩
  · unfold set_str
    rw [if_neg (by rw [hn]; simp), if_neg (by rw [hv]; simp)]
  · unfold get_str
    rw [if_neg (by rw [hn]; simp)]
    rw [getParamEntry_setParamEntry]
    show some (unmetafy (metafy value)) = some value
    rw [unmetafy_metafy]
  · unfold set_array
    rw [if_neg (by rw [hn]; simp), if_neg (by rw [hvs]; simp)]
  · unfold get_list
    rw [if_neg (by rw [hn]; simp)]
    rw [getParamEntry_setParamEntry]
    show some (List.map unmetafy (List.map metafy values)) = some values
    rw [List.map_map]
    have hmap : List.map (unmetafy ∘ metafy) values = values := by
      have hc : unmetafy ∘ metafy = id := by
        funext x
        exact unmetafy_metafy x
      rw [hc, List.map_id]
    rw [hmap]

/-- Witness for C8 at a concrete input: empty table, FOO := bar and
ARR := [a, b] (as byte strings). -/
theorem set_get_round_trip_witness :
    set_str [] [70, 79, 79] [98, 97, 114] =
      .ok (setParamEntry [] [70, 79, 79] (.scalar (metafy [98, 97, 114]))) ∧
    get_str (setParamEntry [] [70, 79, 79] (.scalar (metafy [98, 97, 114])))
      [70, 79, 79] = some [98, 97, 114] ∧
    set_array [] [65, 82, 82] [[97], [98]] =
      .ok (setParamEntry [] [65, 82, 82] (.array ([[97], [98]].map metafy))) ∧
    get_list (setParamEntry [] [65, 82, 82] (.array ([[97], [98]].map metafy)))
      [65, 82, 82] = some [[97], [98]] := by
  have h1 := set_get_round_trip [] [70, 79, 79] [98, 97, 114] [[97], [98]]
    (by decide) (by decide) (by decide)
  have h2 := set_get_round_trip [] [65, 82, 82] [98, 97, 114] [[97], [98]]
    (by decide) (by decide) (by decide)
  exact ⟨h1.1, h1.2.1, h2.2.2.1, h2.2.2.2⟩

/-- C5 counterexample: ZString::new, given a byte string with an embedded
terminator byte, aborts the process (panics) instead of returning a local
error value, so abort is not reserved for out-of-memory and null-pointer
wrapping. -/
theorem embedded_nul_aborts_cex :
    ([97, 0, 98] : Bytes).contains 0 = true ∧
    zstringNew [97, 0, 98] =
      .abort "ZString::new failed: input string contains null bytes" ∧
    (zstringNew [97, 0, 98]).isLocalErr = false := by
  refine ⟨by decide, rfl, rfl⟩

/-- C5 amended: the parameter setters surface embedded-terminator inputs as
local error values (Invalid name / Invalid value), but ZString::new — used
by Builtin::new and the direct-handle setters — panics (aborts) on an
embedded terminator, so aborts are not limited to out-of-memory and
null-pointer wrapping. -/
theorem embedded_nul_amended (s name1 value1 name2 value2 : Bytes)
    (values : List Bytes) (tab : ParamTable)
    (hs : s.contains 0 = true)
    (hn1 : name1.contains 0 = true)
    (hn2 : name2.contains 0 = false) (hv2 : value2.contains 0 = true)
    (hvv : values.any (fun v => v.contains 0) = true) :
    zstringNew s =
      .abort "ZString::new failed: input string contains null bytes" ∧
    set_str tab name1 value1 = .error "Invalid name" ∧
    set_str tab name2 value2 = .error "Invalid value" ∧
    set_array tab name1 values = .error "Invalid name" ∧
    set_array tab name2 values = .error "Invalid value in array" := by
  refine ⟨?_, ?_, ?_, ?_, ?_⟩
  · unfold zstringNew
    rw [if_pos hs]
  · unfold set_str
    rw [if_pos hn1]
  · unfold set_str
    rw [if_neg (by rw [hn2]; simp), if_pos hv2]
  · unfold set_array
    rw [if_pos hn1]
  · unfold set_array
    rw [if_neg (by rw [hn2]; simp), if_pos hvv]

/-- Witness for the amended C5 at concrete inputs containing the
terminator byte 0. -/
theorem embedded_nul_amended_witness :
    zstringNew [97, 0] =
      .abort "ZString::new failed: input string contains null bytes" ∧
    set_str [] [0] [98] = .error "Invalid name" ∧
    set_str [] [65] [0, 66] = .error "Invalid value" ∧
    set_array [] [0] [[99, 0]] = .error "Invalid name" ∧
    set_array [] [65] [[99, 0]] = .error "Invalid value in array" :=
  embedded_nul_amended [97, 0] [0] [98] [65] [0, 66] [[99, 0]] []
    (by decide) (by decide) (by decide) (by decide) (by decide)

/-! ## Direct-access parameter handles (src/src/envs/direct.rs) -/

/-- The host environment a direct handle resolves against: name-based
lookup in the parameter hash table (gethashnode2 on paramtab) and the
liveness of a node, i.e. whether its nam field is non-null. Nodes are
abstract identifiers. Modelled from the spec: the hash table and node
store are zsh host state, not part of src/. -/
structure ParamHost where
  lookupTab : String → Option Nat
  namValid : Nat → Bool

/-- The cached-pointer handle `ZshParamPtr` of src/src/envs/direct.rs: the
parameter name and the cached node pointer (none = null, the initial state
made by `new`). -/
structure ZshParamPtrS where
  name : String
  node : Option Nat
deriving DecidableEq, Repr

/-- The name-based lookup path of ensure_node (src/src/envs/direct.rs
lines 42-48): CString conversion (local error on embedded NUL), then
gethashnode2 lookup, caching the found node. The final Nat counts the
name-based host lookups performed by the call (0 or 1). -/
def lookupNode (H : ParamHost) (s : ZshParamPtrS) :
    Except String Nat × ZshParamPtrS × Nat :=
  if hasNul s.name then (.error "Invalid name", s, 0)
  else
    match H.lookupTab s.name with
    | none => (.error "Parameter not found", s, 1)
    | some p => (.ok p, { s with node := some p }, 1)

/-- Embeds `ZshParamPtr::ensure_node` (src/src/envs/direct.rs lines 37-50): when a
node is cached and its nam field is non-null, return it with no host
lookup; otherwise fall back to the name-based lookup path. Every typed
get/set of the handle calls this exactly once and performs no other
name-based lookup. -/
def ensureNode (H : ParamHost) (s : ZshParamPtrS) :
    Except String Nat × ZshParamPtrS × Nat :=
  match s.node with
  | some n => if H.namValid n then (.ok n, s, 0) else lookupNode H s
  | none => lookupNode H s

/-- C7: a fresh handle resolves with exactly one name-based lookup and
caches the node; a later access while the cached node's name field is
non-null (host snapshot H2) succeeds with zero lookups and leaves the
handle unchanged — so repeated gets/sets never repeat the lookup; an
access after the node was invalidated (host snapshot H3, nam field null)
performs exactly one re-resolution and succeeds with the freshly resolved
node. -/
theorem direct_cache_no_relookup (H H2 H3 : ParamHost) (name : String)
    (n m : Nat) (hnul : hasNul name = false)
    (hfind : H.lookupTab name = some n)
    (hvalid : H2.namValid n = true)
    (hinvalid : H3.namValid n = false)
    (hfind3 : H3.lookupTab name = some m) :
    ensureNode H ⟨name, none⟩ = (.ok n, ⟨name, some n⟩, 1) ∧
    ensureNode H2 ⟨name, some n⟩ = (.ok n, ⟨name, some n⟩, 0) ∧
    ensureNode H3 ⟨name, some n⟩ = (.ok m, ⟨name, some m⟩, 1) := by
  refine ⟨?_, ?_, ?_⟩
  · unfold ensureNode lookupNode
    simp only [hnul, Bool.false_eq_true, if_false, hfind]
  · unfold ensureNode
    simp only [hvalid, if_true]
  · unfold ensureNode lookupNode
    simp only [hinvalid, Bool.false_eq_true, if_false, hnul, hfind3]

/-- A sample host for the C7 witness: parameter VAR resolves to node 3,
all nodes live. -/
def sampleHost1 : ParamHost :=
  ⟨fun s => if s == "VAR" then some 3 else none, fun _ => true⟩

/-- A second sample host for the C7 witness: node 3 has been invalidated
and VAR now resolves to node 8, which is live. -/
def sampleHost2 : ParamHost :=
  ⟨fun s => if s == "VAR" then some 8 else none, fun k => k == 8⟩

/-- Witness for C7 at a concrete input: handle for VAR, first resolved to
node 3, accessed again while valid, then re-resolved to node 8 after
invalidation. -/
theorem direct_cache_no_relookup_witness :
    ensureNode sampleHost1 ⟨"VAR", none⟩ = (.ok 3, ⟨"VAR", some 3⟩, 1) ∧
    ensureNode sampleHost1 ⟨"VAR", some 3⟩ = (.ok 3, ⟨"VAR", some 3⟩, 0) ∧
    ensureNode sampleHost2 ⟨"VAR", some 3⟩ = (.ok 8, ⟨"VAR", some 8⟩, 1) :=
  direct_cache_no_relookup sampleHost1 sampleHost1 sampleHost2 "VAR" 3 8
    (by decide) rfl rfl rfl rfl

end ZshSystem
